import Mathlib

/-!
Shallow embedding of the myformsnapper cloud functions
(save-embeddings, retrieve-embeddings, delete-embeddings).

The object store is modelled as a flag for bucket existence plus an
association list from blob names to JSON contents; the list order is the
listing order returned by the store.  JSON serialisation and parsing are
the identity in the model (blobs hold structured JSON values directly).
-/

namespace MyFormSnapper

/-- JSON values as stored and exchanged by the functions.  Numbers are
modelled as integers; the payloads are never inspected by any operation. -/
inductive Json where
  | null : Json
  | bool (b : Bool) : Json
  | num (n : Int) : Json
  | str (s : String) : Json
  | arr (elems : List Json) : Json
  | obj (fields : List (String × Json)) : Json

/-- The object store: bucket-existence flag plus the blobs
(name, JSON content), in listing order. -/
structure Store where
  bucketExists : Bool
  blobs : List (String × Json)

/-- Overwrite-or-append update of an association list; models both a
Python dict assignment (insertion order kept, update in place) and a
storage upload with overwrite-if-exists semantics. -/
def updateAssoc {α : Type} (xs : List (String × α)) (k : String) (v : α) :
    List (String × α) :=
  match xs with
  | [] => [(k, v)]
  | (k', v') :: rest =>
      if k' = k then (k, v) :: rest else (k', v') :: updateAssoc rest k v

/-- Models a listing filter by key beginning: p begins s. -/
def strStarts (p s : String) : Bool :=
  p.data.isPrefixOf s.data

/-- Auxiliary split of a character list at every slash. -/
def splitSlashAux : List Char → List Char → List (List Char)
  | [], acc => [acc.reverse]
  | ch :: rest, acc =>
      if ch = '/' then acc.reverse :: splitSlashAux rest []
      else splitSlashAux rest (ch :: acc)

/-- Models Python name.split on the slash character (keeps empty pieces;
the empty string splits to one empty piece). -/
def splitSlash (s : String) : List String :=
  (splitSlashAux s.data []).map (fun l => String.mk l)

/-- The bucket used by all three functions. -/
def BUCKET_NAME : String := "myformsnapper-embeddings"

/-- Key beginning for all documents of a user: users/<userId>/documents/ -/
def userDir (u : String) : String :=
  "users/" ++ u ++ "/documents/"

/-- Key beginning for one document: users/<userId>/documents/<documentId>/ -/
def docDir (u d : String) : String :=
  "users/" ++ u ++ "/documents/" ++ d ++ "/"

/-- Blob name of the chunks object of a document. -/
def chunksBlobName (u d : String) : String :=
  docDir u d ++ "chunks.json"

/-- Blob name of the metadata object of a document. -/
def metadataBlobName (u d : String) : String :=
  docDir u d ++ "metadata.json"

/-- The elements Python obtains when iterating a JSON value: the elements
of a list, the characters of a string, the keys of a dict.  Only ever
applied to iterable values (see pyExtend); the default is unreachable
there. -/
def pyElems : Json → List Json
  | .arr xs => xs
  | .str s => s.data.map (fun c => .str (String.mk [c]))
  | .obj fs => fs.map (fun p => .str p.1)
  | _ => []

/-- Whether Python can iterate the value: lists, strings and dicts are
iterable; numbers, booleans and null are not. -/
def pyIterable : Json → Bool
  | .arr _ => true
  | .str _ => true
  | .obj _ => true
  | _ => false

/-- Python list.extend: appends the elements of an iterable argument to
the accumulator and raises TypeError on a non-iterable argument, which
the outer except-handler of the function turns into an HTTP 500. -/
def pyExtend (acc : List Json) (j : Json) : Except String (List Json) :=
  if pyIterable j then .ok (acc ++ pyElems j)
  else .error "TypeError: object is not iterable"

/-- The documentId path segment of a blob name: segment 3 (0-indexed) of
the slash-split name, provided the name has at least 5 segments. -/
def docSeg (name : String) : Option String :=
  let parts := splitSlash name
  if parts.length ≥ 5 then some (parts.getD 3 "") else none

/-- The file path segment of a blob name: segment 4 (0-indexed) of the
slash-split name, provided the name has at least 5 segments. -/
def fileSeg (name : String) : Option String :=
  let parts := splitSlash name
  if parts.length ≥ 5 then some (parts.getD 4 "") else none

/-- Segment 3 of the slash-split name, with empty-string default. -/
def seg3 (name : String) : String :=
  (splitSlash name).getD 3 ""

/-- One insertion into a duplicate-free accumulator. -/
def dedupStep (acc : List String) (x : String) : List String :=
  if x ∈ acc then acc else acc ++ [x]

/-- Distinct elements of a list in first-occurrence order; models the
observable content of a Python set or dict key view built by insertion. -/
def firstDedup (l : List String) : List String :=
  l.foldl dedupStep []

/-- Request body of save_embeddings: each field present or absent.
A none body models a missing or falsy JSON body.  Identifier fields are
modelled as strings, the only case the contract discusses. -/
structure SaveRequest where
  userId : Option String
  documentId : Option String
  fileName : Option String
  chunks : Option Json
  metadata : Option Json

/-- Response of save_embeddings (CORS headers omitted). -/
inductive SaveResult where
  | badRequest (error : String)
  | ok (documentId : String) (chunksSaved : Nat) (storageUrl : String)
      (message : String)

/-- HTTP status of a save response. -/
def SaveResult.status : SaveResult → Nat
  | .badRequest _ => 400
  | .ok _ _ _ _ => 200

/-- save_embeddings from src/cloud-function-embeddings/save-embeddings/main.py.
bucketOpsRaise models whether the bucket existence check or creation
raises; the source swallows that exception and falls back to a plain
bucket handle before the two uploads. -/
def save_embeddings (req : Option SaveRequest) (bucketOpsRaise : Bool)
    (st : Store) : SaveResult × Store :=
  match req with
  | none => (.badRequest "No JSON data provided", st)
  | some r =>
    match r.userId with
    | none => (.badRequest "Missing required field: userId", st)
    | some u =>
    match r.documentId with
    | none => (.badRequest "Missing required field: documentId", st)
    | some d =>
    match r.fileName with
    | none => (.badRequest "Missing required field: fileName", st)
    | some f =>
    match r.chunks with
    | none => (.badRequest "Missing required field: chunks", st)
    | some c =>
    match r.metadata with
    | none => (.badRequest "Missing required field: metadata", st)
    | some m =>
    match c with
    | .arr chunkList =>
        if chunkList.isEmpty then (.badRequest "chunks array is empty", st)
        else
          let st1 : Store :=
            if bucketOpsRaise then st
            else if st.bucketExists then st
            else { st with bucketExists := true }
          let blobs1 := updateAssoc st1.blobs (chunksBlobName u d) (.arr chunkList)
          let blobs2 := updateAssoc blobs1 (metadataBlobName u d) m
          let url := "gs://" ++ BUCKET_NAME ++ "/" ++ chunksBlobName u d
          (.ok d chunkList.length url
            ("Successfully saved " ++ toString chunkList.length ++
              " chunks for " ++ f),
           { st1 with blobs := blobs2 })
    | _ => (.badRequest "chunks must be an array", st)

/-- Request body of retrieve_embeddings and delete_embeddings. -/
structure UserDocRequest where
  userId : Option String
  documentId : Option String

/-- Response of retrieve_embeddings.  serverError is the HTTP 500 answer
of the outer except-handler, reached when an exception (such as the
TypeError of extending a non-iterable chunks content) escapes the body. -/
inductive RetrieveResult where
  | badRequest (error : String)
  | notFound (error : String)
  | serverError (error : String)
  | ok (chunks : List Json) (metadata : List Json) (documentsCount : Nat)
      (message : String)

/-- HTTP status of a retrieve response. -/
def RetrieveResult.status : RetrieveResult → Nat
  | .badRequest _ => 400
  | .notFound _ => 404
  | .serverError _ => 500
  | .ok _ _ _ _ => 200

/-- The message of a successful retrieve response. -/
def retrievedMsg (nc nm : Nat) : String :=
  "Retrieved " ++ toString nc ++ " chunks from " ++ toString nm ++ " documents"

/-- The conditional append of a metadata value: a single-element list
when the metadata blob exists, the empty list otherwise. -/
def optList (o : Option Json) : List Json :=
  match o with
  | some m => [m]
  | none => []

/-- Single-document branch of retrieve_embeddings. -/
def retrieveSingle (u d : String) (st : Store) : RetrieveResult :=
  match st.blobs.lookup (chunksBlobName u d) with
  | none => .notFound ("Document " ++ d ++ " not found")
  | some c =>
      match pyExtend [] c with
      | .error e => .serverError e
      | .ok allChunks =>
          let allMetadata : List Json :=
            optList (st.blobs.lookup (metadataBlobName u d))
          .ok allChunks allMetadata allMetadata.length
            (retrievedMsg allChunks.length allMetadata.length)

/-- One step of the grouping loop of the all-documents branch: a blob
whose name has at least 5 segments is filed under its documentId segment
and file segment; others are skipped. -/
def addBlob (docs : List (String × List (String × Json)))
    (b : String × Json) : List (String × List (String × Json)) :=
  match docSeg b.1, fileSeg b.1 with
  | some docId, some fileType =>
      let files :=
        match docs.lookup docId with
        | some fs => fs
        | none => []
      updateAssoc docs docId (updateAssoc files fileType b.2)
  | _, _ => docs

/-- One iteration of the retrieval loop of the all-documents branch:
extend the chunk list with a chunks.json member (a raised TypeError
aborts the loop before the metadata of the same group), then append a
metadata.json member. -/
def collectStep (acc : List Json × List Json)
    (g : String × List (String × Json)) : Except String (List Json × List Json) :=
  match g.2.lookup "chunks.json" with
  | some c =>
      match pyExtend acc.1 c with
      | .error e => .error e
      | .ok cs =>
          match g.2.lookup "metadata.json" with
          | some m => .ok (cs, acc.2 ++ [m])
          | none => .ok (cs, acc.2)
  | none =>
      match g.2.lookup "metadata.json" with
      | some m => .ok (acc.1, acc.2 ++ [m])
      | none => .ok (acc.1, acc.2)

/-- The retrieval loop of the all-documents branch; a raised exception
aborts the remaining iterations. -/
def collectDocs : List (String × List (String × Json)) →
    List Json × List Json → Except String (List Json × List Json)
  | [], acc => .ok acc
  | g :: rest, acc =>
      match collectStep acc g with
      | .error e => .error e
      | .ok acc1 => collectDocs rest acc1

/-- All-documents branch of retrieve_embeddings. -/
def retrieveAll (u : String) (st : Store) : RetrieveResult :=
  let listing := st.blobs.filter (fun b => strStarts (userDir u) b.1)
  let docs := listing.foldl addBlob []
  match collectDocs docs ([], []) with
  | .error e => .serverError e
  | .ok res =>
      .ok res.1 res.2 res.2.length (retrievedMsg res.1.length res.2.length)

/-- retrieve_embeddings from
src/cloud-function-embeddings/retrieve-embeddings/main.py.  The mode
dispatch mirrors Python truthiness: an absent or empty documentId
selects the all-documents branch. -/
def retrieve_embeddings (req : Option UserDocRequest) (st : Store) :
    RetrieveResult :=
  match req with
  | none => .badRequest "No JSON data provided"
  | some r =>
    match r.userId with
    | none => .badRequest "Missing required field: userId"
    | some u =>
      if st.bucketExists then
        match r.documentId with
        | some d => if d = "" then retrieveAll u st else retrieveSingle u d st
        | none => retrieveAll u st
      else
        .ok [] [] 0 "No documents found"

/-- Response of delete_embeddings. -/
inductive DeleteResult where
  | badRequest (error : String)
  | notFound (error : String)
  | ok (documentsDeleted : Nat) (message : String)

/-- HTTP status of a delete response. -/
def DeleteResult.status : DeleteResult → Nat
  | .badRequest _ => 400
  | .notFound _ => 404
  | .ok _ _ => 200

/-- Specific-document branch of delete_embeddings. -/
def deleteSingle (u d : String) (st : Store) : DeleteResult × Store :=
  let listing := st.blobs.filter (fun b => strStarts (docDir u d) b.1)
  if listing.isEmpty then
    (.notFound ("Document " ++ d ++ " not found"), st)
  else
    (.ok 1 ("Successfully deleted document " ++ d),
     { st with blobs := st.blobs.filter (fun b => !(strStarts (docDir u d) b.1)) })

/-- All-documents branch of delete_embeddings: the distinct documentId
segments of the listed names with at least 5 segments are collected into
a set (observed only through its size), then every listed blob is
deleted. -/
def deleteAll (u : String) (st : Store) : DeleteResult × Store :=
  let listing := st.blobs.filter (fun b => strStarts (userDir u) b.1)
  let documents := firstDedup (listing.filterMap (fun b => docSeg b.1))
  (.ok documents.length
    ("Successfully deleted " ++ toString documents.length ++
      " documents for user " ++ u),
   { st with blobs := st.blobs.filter (fun b => !(strStarts (userDir u) b.1)) })

/-- delete_embeddings from
src/cloud-function-embeddings/delete-embeddings/main.py. -/
def delete_embeddings (req : Option UserDocRequest) (st : Store) :
    DeleteResult × Store :=
  match req with
  | none => (.badRequest "No JSON data provided", st)
  | some r =>
    match r.userId with
    | none => (.badRequest "Missing required field: userId", st)
    | some u =>
      if st.bucketExists then
        match r.documentId with
        | some d => if d = "" then deleteAll u st else deleteSingle u d st
        | none => deleteAll u st
      else
        (.ok 0 "No documents to delete", st)

/-! Specification-side description of the all-documents aggregation,
stated in the words of the specification: group the listed objects by the
documentId path segment; per group, the chunks.json contents (the last
listed such object, since later entries overwrite earlier ones in the
grouping map) are concatenated in group order and the metadata.json
contents are appended.  Compared against the source-side grouping loop. -/

/-- The distinct documentId segments of a listing, in first-occurrence
order. -/
def listedDocIds (listing : List (String × Json)) : List String :=
  firstDedup (listing.filterMap (fun b => docSeg b.1))

/-- The content of the last listed blob of a group with a given file
segment. -/
def lastFileOf (listing : List (String × Json)) (d ft : String) :
    Option Json :=
  ((listing.filter
      (fun b => decide (docSeg b.1 = some d) && decide (fileSeg b.1 = some ft))).getLast?).map
    (fun b => b.2)

/-- The elements contributed by an optional chunks.json content. -/
def optElems (o : Option Json) : List Json :=
  match o with
  | some c => pyElems c
  | none => []

/-- Spec-side aggregate chunk sequence: per document in group order, the
elements of its chunks.json content. -/
def specChunks (listing : List (String × Json)) : List Json :=
  ((listedDocIds listing).map (fun d =>
    optElems (lastFileOf listing d "chunks.json"))).flatten

/-- Spec-side aggregate metadata list: per document in group order, its
metadata.json content when present. -/
def specMeta (listing : List (String × Json)) : List Json :=
  (listedDocIds listing).filterMap (fun d => lastFileOf listing d "metadata.json")

/-- The documentsDeleted field of a delete response, when successful. -/
def DeleteResult.deletedCount : DeleteResult → Option Nat
  | .ok n _ => some n
  | _ => none

/-! Lemmas about the association-list and deduplication helpers. -/

theorem lookup_updateAssoc_self {α : Type} (xs : List (String × α)) (k : String) (v : α) :
    (updateAssoc xs k v).lookup k = some v := by
  induction xs with
  | nil => simp [updateAssoc, List.lookup]
  | cons p rest ih =>
      obtain ⟨k', v'⟩ := p
      by_cases h : k' = k
      · subst h
        simp [updateAssoc, List.lookup]
      · have hbe : (k == k') = false := beq_eq_false_iff_ne.mpr (Ne.symm h)
        simp [updateAssoc, h, List.lookup, hbe, ih]

theorem lookup_updateAssoc_ne {α : Type} (xs : List (String × α)) (k k' : String) (v : α)
    (h : k' ≠ k) : (updateAssoc xs k v).lookup k' = xs.lookup k' := by
  have hbk : (k' == k) = false := beq_eq_false_iff_ne.mpr h
  induction xs with
  | nil => simp [updateAssoc, List.lookup, hbk]
  | cons p rest ih =>
      obtain ⟨a, b⟩ := p
      by_cases ha : a = k
      · subst ha
        simp [updateAssoc, List.lookup, hbk]
      · by_cases hka : k' = a
        · subst hka
          simp [updateAssoc, ha, List.lookup]
        · have hba : (k' == a) = false := beq_eq_false_iff_ne.mpr hka
          simp [updateAssoc, ha, List.lookup, hba, ih]

theorem map_fst_updateAssoc {α : Type} (xs : List (String × α)) (k : String) (v : α) :
    (updateAssoc xs k v).map Prod.fst =
      if k ∈ xs.map Prod.fst then xs.map Prod.fst else xs.map Prod.fst ++ [k] := by
  induction xs with
  | nil => simp [updateAssoc]
  | cons p rest ih =>
      obtain ⟨a, b⟩ := p
      by_cases ha : a = k
      · subst ha
        simp [updateAssoc]
      · by_cases hm : k ∈ rest.map Prod.fst <;>
          simp [updateAssoc, ha, ih, hm, Ne.symm ha]

theorem lookup_eq_some_of_mem {α : Type} (xs : List (String × α))
    (hnd : (xs.map Prod.fst).Nodup) (g : String × α) (hg : g ∈ xs) :
    xs.lookup g.1 = some g.2 := by
  induction xs with
  | nil => cases hg
  | cons p rest ih =>
      obtain ⟨a, b⟩ := p
      simp only [List.map_cons, List.nodup_cons] at hnd
      rcases List.mem_cons.mp hg with hg1 | hg2
      · subst hg1
        simp [List.lookup]
      · by_cases hga : g.1 = a
        · exact absurd (hga ▸ List.mem_map_of_mem Prod.fst hg2) hnd.1
        · have hba : (g.1 == a) = false := beq_eq_false_iff_ne.mpr hga
          simp [List.lookup, hba, ih hnd.2 hg2]

theorem string_data_inj {a b : String} (h : a.data = b.data) : a = b := by
  cases a; cases b; exact congrArg String.mk h

theorem strAppend_ne_right (p a b : String) (h : a ≠ b) : p ++ a ≠ p ++ b := by
  intro he
  apply h
  apply string_data_inj
  have hd : p.data ++ a.data = p.data ++ b.data := by
    rw [← String.data_append, ← String.data_append, he]
  exact List.append_cancel_left hd

theorem chunksBlobName_ne_metadataBlobName (u d : String) :
    chunksBlobName u d ≠ metadataBlobName u d :=
  strAppend_ne_right (docDir u d) "chunks.json" "metadata.json" (by decide)

theorem mem_dedupFold (l acc : List String) (y : String) :
    y ∈ l.foldl dedupStep acc ↔ y ∈ acc ∨ y ∈ l := by
  induction l generalizing acc with
  | nil => simp
  | cons a t ih =>
      rw [List.foldl_cons, ih]
      by_cases ha : a ∈ acc
      · simp only [dedupStep, ha, if_true, List.mem_cons]
        constructor
        · rintro (h | h) <;> tauto
        · rintro (h | rfl | h) <;> tauto
      · simp only [dedupStep, ha, if_false, List.mem_append, List.mem_singleton,
          List.mem_cons]
        tauto

theorem nodup_dedupFold (l acc : List String) (h : acc.Nodup) :
    (l.foldl dedupStep acc).Nodup := by
  induction l generalizing acc with
  | nil => simpa
  | cons a t ih =>
      rw [List.foldl_cons]
      apply ih
      by_cases ha : a ∈ acc
      · simpa [dedupStep, ha]
      · simp only [dedupStep, ha, if_false]
        simp [List.nodup_append, h, ha]

theorem nodup_firstDedup (l : List String) : (firstDedup l).Nodup :=
  nodup_dedupFold l [] (by simp)

theorem firstDedup_append_singleton (l : List String) (x : String) :
    firstDedup (l ++ [x]) = dedupStep (firstDedup l) x := by
  simp [firstDedup, List.foldl_append]

theorem filterMap_congr_mem {α β : Type} (l : List α) (f g : α → Option β)
    (h : ∀ a ∈ l, f a = g a) : l.filterMap f = l.filterMap g := by
  induction l with
  | nil => rfl
  | cons a t ih =>
      rw [List.filterMap_cons, List.filterMap_cons, h a (by simp),
        ih (fun x hx => h x (by simp [hx]))]

theorem filterMap_eq_map_mem {α β : Type} (l : List α) (f : α → Option β) (g : α → β)
    (h : ∀ a ∈ l, f a = some (g a)) : l.filterMap f = l.map g := by
  induction l with
  | nil => rfl
  | cons a t ih =>
      rw [List.filterMap_cons, h a (by simp), List.map_cons,
        ih (fun x hx => h x (by simp [hx]))]

theorem docSeg_eq (n : String) :
    docSeg n = if (splitSlash n).length ≥ 5 then some (seg3 n) else none := rfl

theorem fileSeg_of_docSeg (n x : String) (h : docSeg n = some x) :
    fileSeg n = some ((splitSlash n).getD 4 "") := by
  unfold docSeg at h
  unfold fileSeg
  by_cases h5 : (splitSlash n).length ≥ 5
  · simp [h5]
  · simp [h5] at h

theorem collectDocs_ok (docs : List (String × List (String × Json)))
    (acc : List Json × List Json)
    (h : ∀ g ∈ docs, ∀ c, g.2.lookup "chunks.json" = some c → pyIterable c = true) :
    collectDocs docs acc =
      .ok (acc.1 ++ (docs.map (fun g => optElems (g.2.lookup "chunks.json"))).flatten,
           acc.2 ++ docs.filterMap (fun g => g.2.lookup "metadata.json")) := by
  induction docs generalizing acc with
  | nil => simp [collectDocs]
  | cons g t ih =>
      have hT : ∀ x ∈ t, ∀ c, x.2.lookup "chunks.json" = some c → pyIterable c = true :=
        fun x hx c hc => h x (List.mem_cons_of_mem _ hx) c hc
      have iht : ∀ acc1 : List Json × List Json, collectDocs t acc1 =
          .ok (acc1.1 ++ (t.map (fun g => optElems (g.2.lookup "chunks.json"))).flatten,
               acc1.2 ++ t.filterMap (fun g => g.2.lookup "metadata.json")) :=
        fun acc1 => ih acc1 hT
      cases hcs : g.2.lookup "chunks.json" with
      | none =>
          cases hms : g.2.lookup "metadata.json" <;>
            simp [collectDocs, collectStep, hcs, hms, optElems,
              List.filterMap_cons, iht]
      | some c =>
          have hit : pyIterable c = true := h g (List.mem_cons_self _ _) c hcs
          cases hms : g.2.lookup "metadata.json" <;>
            simp [collectDocs, collectStep, hcs, hms, optElems, pyExtend, hit,
              List.filterMap_cons, iht]

theorem lastFileOf_mem (L : List (String × Json)) (d ft : String) (c : Json)
    (h : lastFileOf L d ft = some c) :
    ∃ b ∈ L, b.2 = c ∧ docSeg b.1 = some d ∧ fileSeg b.1 = some ft := by
  unfold lastFileOf at h
  cases hgl : (L.filter
      (fun b => decide (docSeg b.1 = some d) && decide (fileSeg b.1 = some ft))).getLast? with
  | none => rw [hgl] at h; cases h
  | some b =>
      rw [hgl] at h
      have hb2 : b.2 = c := by simpa using h
      have hx : b ∈ (L.filter
          (fun b => decide (docSeg b.1 = some d) && decide (fileSeg b.1 = some ft))).getLast? :=
        Option.mem_def.mpr hgl
      obtain ⟨hnil, hbeq⟩ := List.mem_getLast?_eq_getLast hx
      have hmemf : b ∈ L.filter
          (fun b => decide (docSeg b.1 = some d) && decide (fileSeg b.1 = some ft)) :=
        hbeq ▸ List.getLast_mem hnil
      have hsplit := List.mem_filter.mp hmemf
      refine ⟨b, hsplit.1, hb2, ?_, ?_⟩
      · have := hsplit.2
        simp only [Bool.and_eq_true, decide_eq_true_eq] at this
        exact this.1
      · have := hsplit.2
        simp only [Bool.and_eq_true, decide_eq_true_eq] at this
        exact this.2

theorem lastFileOf_append_docne (L : List (String × Json)) (b : String × Json)
    (d ft : String) (h : docSeg b.1 ≠ some d) :
    lastFileOf (L ++ [b]) d ft = lastFileOf L d ft := by
  unfold lastFileOf
  rw [List.filter_append]
  have hf : List.filter
      (fun x => decide (docSeg x.1 = some d) && decide (fileSeg x.1 = some ft)) [b] = [] := by
    simp [List.filter_cons, h]
  rw [hf, List.append_nil]

theorem lastFileOf_append_ftne (L : List (String × Json)) (b : String × Json)
    (d ft : String) (h : fileSeg b.1 ≠ some ft) :
    lastFileOf (L ++ [b]) d ft = lastFileOf L d ft := by
  unfold lastFileOf
  rw [List.filter_append]
  have hf : List.filter
      (fun x => decide (docSeg x.1 = some d) && decide (fileSeg x.1 = some ft)) [b] = [] := by
    simp [List.filter_cons, h]
  rw [hf, List.append_nil]

theorem lastFileOf_append_match (L : List (String × Json)) (b : String × Json)
    (d ft : String) (hd : docSeg b.1 = some d) (hf : fileSeg b.1 = some ft) :
    lastFileOf (L ++ [b]) d ft = some b.2 := by
  unfold lastFileOf
  rw [List.filter_append]
  have hb : List.filter
      (fun x => decide (docSeg x.1 = some d) && decide (fileSeg x.1 = some ft)) [b] = [b] := by
    simp [List.filter_cons, hd, hf]
  rw [hb, List.getLast?_concat]
  rfl

theorem map_fst_foldl_addBlob (L : List (String × Json)) :
    (L.foldl addBlob []).map Prod.fst = listedDocIds L := by
  induction L using List.reverseRecOn with
  | nil => rfl
  | append_singleton L b ih =>
      rw [List.foldl_append, List.foldl_cons, List.foldl_nil]
      unfold listedDocIds
      rw [List.filterMap_append]
      cases hseg : docSeg b.1 with
      | none =>
          have hb : addBlob (L.foldl addBlob []) b = L.foldl addBlob [] := by
            simp [addBlob, hseg]
          rw [hb, ih]
          simp [listedDocIds, hseg]
      | some d0 =>
          have hft := fileSeg_of_docSeg b.1 d0 hseg
          have hfm : List.filterMap (fun b => docSeg b.1) [b] = [d0] := by
            simp [List.filterMap_cons, hseg]
          rw [hfm, firstDedup_append_singleton]
          have hb : addBlob (L.foldl addBlob []) b =
              updateAssoc (L.foldl addBlob []) d0
                (updateAssoc
                  (match (L.foldl addBlob []).lookup d0 with
                   | some fs => fs
                   | none => []) ((splitSlash b.1).getD 4 "") b.2) := by
            simp [addBlob, hseg, hft]
          rw [hb, map_fst_updateAssoc, ih]
          rfl

theorem lookup_foldl_addBlob (L : List (String × Json)) :
    ∀ d ft, ((L.foldl addBlob []).lookup d).bind (fun fs => fs.lookup ft) =
      lastFileOf L d ft := by
  induction L using List.reverseRecOn with
  | nil => intro d ft; rfl
  | append_singleton L b ih =>
      intro d ft
      rw [List.foldl_append, List.foldl_cons, List.foldl_nil]
      cases hseg : docSeg b.1 with
      | none =>
          have hb : addBlob (L.foldl addBlob []) b = L.foldl addBlob [] := by
            simp [addBlob, hseg]
          rw [hb, lastFileOf_append_docne L b d ft (by simp [hseg])]
          exact ih d ft
      | some d0 =>
          have hft := fileSeg_of_docSeg b.1 d0 hseg
          have hb : addBlob (L.foldl addBlob []) b =
              updateAssoc (L.foldl addBlob []) d0
                (updateAssoc
                  (match (L.foldl addBlob []).lookup d0 with
                   | some fs => fs
                   | none => []) ((splitSlash b.1).getD 4 "") b.2) := by
            simp [addBlob, hseg, hft]
          rw [hb]
          by_cases hd : d = d0
          · subst hd
            rw [lookup_updateAssoc_self]
            by_cases hf : ft = (splitSlash b.1).getD 4 ""
            · rw [hf]
              rw [lastFileOf_append_match L b d ((splitSlash b.1).getD 4 "") hseg hft]
              simp [lookup_updateAssoc_self]
            · rw [lastFileOf_append_ftne L b d ft
                (by rw [hft]; exact fun hc => hf (Option.some.inj hc).symm)]
              have hlk := ih d ft
              show (updateAssoc
                  (match (L.foldl addBlob []).lookup d with
                   | some fs => fs
                   | none => []) ((splitSlash b.1).getD 4 "") b.2).lookup ft =
                lastFileOf L d ft
              rw [lookup_updateAssoc_ne _ _ _ _ hf]
              cases hgd : (L.foldl addBlob []).lookup d with
              | none => simpa [hgd] using hlk
              | some fs => simpa [hgd] using hlk
          · rw [lookup_updateAssoc_ne _ _ _ _ hd,
              lastFileOf_append_docne L b d ft
                (by rw [hseg]; exact fun hc => hd (Option.some.inj hc).symm)]
            exact ih d ft

theorem collect_group_spec (L : List (String × Json))
    (hwf : ∀ b ∈ L, fileSeg b.1 = some "chunks.json" → pyIterable b.2 = true) :
    collectDocs (L.foldl addBlob []) ([], []) = .ok (specChunks L, specMeta L) := by
  have hkeys := map_fst_foldl_addBlob L
  have hnd : ((L.foldl addBlob []).map Prod.fst).Nodup := by
    rw [hkeys]; exact nodup_firstDedup _
  have hmem : ∀ g ∈ L.foldl addBlob [], (L.foldl addBlob []).lookup g.1 = some g.2 :=
    fun g hg => lookup_eq_some_of_mem _ hnd g hg
  have hlk : ∀ (g : String × List (String × Json)), g ∈ L.foldl addBlob [] →
      ∀ ft, g.2.lookup ft = lastFileOf L g.1 ft := by
    intro g hg ft
    have h1 := lookup_foldl_addBlob L g.1 ft
    rw [hmem g hg] at h1
    simpa using h1
  rw [collectDocs_ok _ _ (fun g hg c hc => by
    obtain ⟨b, hbL, hb2, _, hbft⟩ :=
      lastFileOf_mem L g.1 "chunks.json" c (by rw [← hlk g hg "chunks.json"]; exact hc)
    exact hb2 ▸ hwf b hbL hbft)]
  have h1 : (L.foldl addBlob []).map (fun g => optElems (g.2.lookup "chunks.json")) =
      (listedDocIds L).map (fun d => optElems (lastFileOf L d "chunks.json")) := by
    have hcongr : (L.foldl addBlob []).map (fun g => optElems (g.2.lookup "chunks.json")) =
        (L.foldl addBlob []).map (fun g => optElems (lastFileOf L g.1 "chunks.json")) := by
      apply List.map_congr_left
      intro g hg
      show optElems (g.2.lookup "chunks.json") = optElems (lastFileOf L g.1 "chunks.json")
      rw [hlk g hg "chunks.json"]
    rw [hcongr,
      show (fun (g : String × List (String × Json)) =>
          optElems (lastFileOf L g.1 "chunks.json")) =
        ((fun d => optElems (lastFileOf L d "chunks.json")) ∘ Prod.fst) from rfl,
      ← List.map_map, hkeys]
  have h2 : (L.foldl addBlob []).filterMap (fun g => g.2.lookup "metadata.json") =
      (listedDocIds L).filterMap (fun d => lastFileOf L d "metadata.json") := by
    rw [filterMap_congr_mem _ _ (fun g => lastFileOf L g.1 "metadata.json")
      (fun g hg => hlk g hg "metadata.json")]
    rw [show (fun (g : String × List (String × Json)) =>
          lastFileOf L g.1 "metadata.json") =
        ((fun d => lastFileOf L d "metadata.json") ∘ Prod.fst) from rfl,
      ← List.filterMap_map, hkeys]
  rw [h1, h2]
  rfl

/-! Claim theorems. -/

/-- Claim C1: for every userId, documentId, fileName, non-empty chunks list
and metadata record, Save followed by single-document Retrieve with the
same (userId, documentId) succeeds and returns exactly the chunks that were
saved, in order, and a metadata list of length 1 holding exactly the saved
metadata.  Single-document mode requires a documentId that selects it,
hence a non-empty documentId string. -/
theorem claim_C1 (u d f : String) (cs : List Json) (m : Json) (st : Store)
    (hd : d ≠ "") (hcs : cs ≠ []) :
    retrieve_embeddings (some ⟨some u, some d⟩)
        (save_embeddings (some ⟨some u, some d, some f, some (Json.arr cs), some m⟩)
          false st).2 =
      RetrieveResult.ok cs [m] 1 (retrievedMsg cs.length 1) := by
  cases cs with
  | nil => exact absurd rfl hcs
  | cons c0 ct =>
      have hne := chunksBlobName_ne_metadataBlobName u d
      cases hbe : st.bucketExists <;>
        simp [save_embeddings, retrieve_embeddings, retrieveSingle, hd, hbe,
          lookup_updateAssoc_self, lookup_updateAssoc_ne _ _ _ _ hne,
          optList, pyElems, pyExtend, pyIterable]

theorem claim_C1_witness :
    ("d1" : String) ≠ "" ∧ ([Json.num 1] : List Json) ≠ [] ∧
    retrieve_embeddings (some ⟨some "u1", some "d1"⟩)
        (save_embeddings (some ⟨some "u1", some "d1", some "f.pdf",
          some (Json.arr [Json.num 1]), some (Json.obj [])⟩) false
          { bucketExists := false, blobs := [] }).2 =
      RetrieveResult.ok [Json.num 1] [Json.obj []] 1 (retrievedMsg 1 1) :=
  ⟨by decide, by simp,
    claim_C1 "u1" "d1" "f.pdf" [Json.num 1] (Json.obj [])
      { bucketExists := false, blobs := [] } (by decide) (by simp)⟩

/-- Claim C2 counterexample: a Save request whose userId is present but the
empty string passes validation and succeeds with status 200, so the claim
that an empty-string userId fails with InvalidInput (HTTP 400) is false on
the code: validation only checks field presence, not emptiness. -/
theorem claim_C2_counterexample :
    (save_embeddings (some ⟨some "", some "d", some "f",
        some (Json.arr [Json.num 1]), some (Json.obj [("k", Json.str "v")])⟩) false
        { bucketExists := true, blobs := [] }).1.status = 200 := rfl

/-- Claim C2 (amended): Save fails with InvalidInput (HTTP 400) naming the
first missing field when any of the five required fields is absent, or
complaining about chunks when chunks is present but not an array or an
empty array; every such failure leaves the store untouched (validation
before any store access).  Empty-string identifiers and empty metadata
objects are accepted: when all five fields are present and chunks is a
non-empty array, the request succeeds with status 200 (no InvalidInput). -/
theorem claim_C2_full (r : SaveRequest) (b : Bool) (st : Store) :
    (r.userId = none →
      save_embeddings (some r) b st =
        (SaveResult.badRequest "Missing required field: userId", st)) ∧
    (r.userId ≠ none → r.documentId = none →
      save_embeddings (some r) b st =
        (SaveResult.badRequest "Missing required field: documentId", st)) ∧
    (r.userId ≠ none → r.documentId ≠ none → r.fileName = none →
      save_embeddings (some r) b st =
        (SaveResult.badRequest "Missing required field: fileName", st)) ∧
    (r.userId ≠ none → r.documentId ≠ none → r.fileName ≠ none → r.chunks = none →
      save_embeddings (some r) b st =
        (SaveResult.badRequest "Missing required field: chunks", st)) ∧
    (r.userId ≠ none → r.documentId ≠ none → r.fileName ≠ none → r.chunks ≠ none →
      r.metadata = none →
      save_embeddings (some r) b st =
        (SaveResult.badRequest "Missing required field: metadata", st)) ∧
    (r.userId ≠ none → r.documentId ≠ none → r.fileName ≠ none → r.metadata ≠ none →
      r.chunks ≠ none → (∀ xs, r.chunks ≠ some (Json.arr xs)) →
      save_embeddings (some r) b st =
        (SaveResult.badRequest "chunks must be an array", st)) ∧
    (r.userId ≠ none → r.documentId ≠ none → r.fileName ≠ none → r.metadata ≠ none →
      r.chunks = some (Json.arr []) →
      save_embeddings (some r) b st =
        (SaveResult.badRequest "chunks array is empty", st)) ∧
    (∀ xs, r.userId ≠ none → r.documentId ≠ none → r.fileName ≠ none →
      r.metadata ≠ none → r.chunks = some (Json.arr xs) → xs ≠ [] →
      (save_embeddings (some r) b st).1.status = 200) := by
  obtain ⟨uo, dd, fo, co, mo⟩ := r
  refine ⟨?_, ?_, ?_, ?_, ?_, ?_, ?_, ?_⟩
  · intro h1
    dsimp only at h1
    subst h1
    rfl
  · intro h1 h2
    obtain ⟨u, hu⟩ := Option.ne_none_iff_exists'.mp h1
    dsimp only at hu h2
    subst hu; subst h2
    rfl
  · intro h1 h2 h3
    obtain ⟨u, hu⟩ := Option.ne_none_iff_exists'.mp h1
    obtain ⟨d, hdd⟩ := Option.ne_none_iff_exists'.mp h2
    dsimp only at hu hdd h3
    subst hu; subst hdd; subst h3
    rfl
  · intro h1 h2 h3 h4
    obtain ⟨u, hu⟩ := Option.ne_none_iff_exists'.mp h1
    obtain ⟨d, hdd⟩ := Option.ne_none_iff_exists'.mp h2
    obtain ⟨f, hf⟩ := Option.ne_none_iff_exists'.mp h3
    dsimp only at hu hdd hf h4
    subst hu; subst hdd; subst hf; subst h4
    rfl
  · intro h1 h2 h3 h4 h5
    obtain ⟨u, hu⟩ := Option.ne_none_iff_exists'.mp h1
    obtain ⟨d, hdd⟩ := Option.ne_none_iff_exists'.mp h2
    obtain ⟨f, hf⟩ := Option.ne_none_iff_exists'.mp h3
    obtain ⟨c, hc⟩ := Option.ne_none_iff_exists'.mp h4
    dsimp only at hu hdd hf hc h5
    subst hu; subst hdd; subst hf; subst hc; subst h5
    rfl
  · intro h1 h2 h3 h4 h5 hna
    obtain ⟨u, hu⟩ := Option.ne_none_iff_exists'.mp h1
    obtain ⟨d, hdd⟩ := Option.ne_none_iff_exists'.mp h2
    obtain ⟨f, hf⟩ := Option.ne_none_iff_exists'.mp h3
    obtain ⟨m, hm⟩ := Option.ne_none_iff_exists'.mp h4
    obtain ⟨c, hc⟩ := Option.ne_none_iff_exists'.mp h5
    dsimp only at hu hdd hf hm hc hna
    subst hu; subst hdd; subst hf; subst hm; subst hc
    cases c <;> first
      | exact absurd rfl (hna _)
      | rfl
  · intro h1 h2 h3 h4 h5
    obtain ⟨u, hu⟩ := Option.ne_none_iff_exists'.mp h1
    obtain ⟨d, hdd⟩ := Option.ne_none_iff_exists'.mp h2
    obtain ⟨f, hf⟩ := Option.ne_none_iff_exists'.mp h3
    obtain ⟨m, hm⟩ := Option.ne_none_iff_exists'.mp h4
    dsimp only at hu hdd hf hm h5
    subst hu; subst hdd; subst hf; subst hm; subst h5
    rfl
  · intro xs h1 h2 h3 h4 h5 hxs
    obtain ⟨u, hu⟩ := Option.ne_none_iff_exists'.mp h1
    obtain ⟨d, hdd⟩ := Option.ne_none_iff_exists'.mp h2
    obtain ⟨f, hf⟩ := Option.ne_none_iff_exists'.mp h3
    obtain ⟨m, hm⟩ := Option.ne_none_iff_exists'.mp h4
    dsimp only at hu hdd hf hm h5
    subst hu; subst hdd; subst hf; subst hm; subst h5
    cases xs with
    | nil => exact absurd rfl hxs
    | cons x0 xt => rfl

theorem claim_C2_witness :
    save_embeddings (some ⟨none, some "d", some "f", some (Json.arr [Json.num 1]),
        some (Json.obj [])⟩) false { bucketExists := true, blobs := [] } =
      (SaveResult.badRequest "Missing required field: userId",
        { bucketExists := true, blobs := [] }) ∧
    (save_embeddings (some ⟨some "u", some "d", some "f", some (Json.arr [Json.num 1]),
        some (Json.obj [])⟩) false { bucketExists := true, blobs := [] }).1.status = 200 := by
  constructor
  · exact (claim_C2_full ⟨none, some "d", some "f", some (Json.arr [Json.num 1]),
      some (Json.obj [])⟩ false { bucketExists := true, blobs := [] }).1 rfl
  · exact (claim_C2_full ⟨some "u", some "d", some "f", some (Json.arr [Json.num 1]),
      some (Json.obj [])⟩ false
        { bucketExists := true, blobs := [] }).2.2.2.2.2.2.2
      [Json.num 1] (by simp) (by simp) (by simp) (by simp) rfl (by simp)

/-- Claim C3: every Save request whose chunks field is the empty array is
answered with HTTP 400 and leaves the store state completely unchanged:
no blob write and no bucket creation happens. -/
theorem claim_C3 (r : SaveRequest) (b : Bool) (st : Store)
    (h : r.chunks = some (Json.arr [])) :
    (save_embeddings (some r) b st).1.status = 400 ∧
    (save_embeddings (some r) b st).2 = st := by
  obtain ⟨uo, dd, fo, co, mo⟩ := r
  dsimp only at h
  subst h
  cases uo <;> cases dd <;> cases fo <;> cases mo <;> exact ⟨rfl, rfl⟩

theorem claim_C3_witness :
    (save_embeddings (some ⟨some "u", some "d", some "f", some (Json.arr []),
        some (Json.obj [])⟩) false { bucketExists := false, blobs := [] }).1.status = 400 ∧
    (save_embeddings (some ⟨some "u", some "d", some "f", some (Json.arr []),
        some (Json.obj [])⟩) false { bucketExists := false, blobs := [] }).2 =
      { bucketExists := false, blobs := [] } :=
  claim_C3 ⟨some "u", some "d", some "f", some (Json.arr []), some (Json.obj [])⟩
    false { bucketExists := false, blobs := [] } rfl

/-- Claim C4 counterexample: when the bucket does not exist, the chunks.json
object for (u, doc1) does not exist in the store, yet single-document
Retrieve answers 200 with an empty result instead of the claimed
NotFound 404 — the bucket-existence check returns early, before the
single-document existence check. -/
theorem claim_C4_counterexample :
    ({ bucketExists := false, blobs := [] } : Store).blobs.lookup
        (chunksBlobName "u" "doc1") = none ∧
    (retrieve_embeddings (some ⟨some "u", some "doc1"⟩)
        { bucketExists := false, blobs := [] }).status = 200 :=
  ⟨rfl, rfl⟩

/-- Claim C4 (amended): for single-document Retrieve, when the bucket does
not exist the response is a successful empty result; when the bucket
exists and chunks.json for (userId, documentId) is absent the operation
fails with NotFound (HTTP 404); when chunks.json exists with an iterable
content (the JSON array that Save writes) the operation succeeds
(HTTP 200) even when metadata.json is absent, with documentsCount equal
to the length of the returned metadata list (0 when metadata.json is
absent, 1 when present); when the existing chunks.json content is not
iterable, extending the chunk list raises TypeError and the operation
fails with HTTP 500. -/
theorem claim_C4_full (u d : String) (st : Store) (hd : d ≠ "") :
    (st.bucketExists = false →
      retrieve_embeddings (some ⟨some u, some d⟩) st =
        RetrieveResult.ok [] [] 0 "No documents found") ∧
    (st.bucketExists = true →
      (st.blobs.lookup (chunksBlobName u d) = none →
        retrieve_embeddings (some ⟨some u, some d⟩) st =
          RetrieveResult.notFound ("Document " ++ d ++ " not found") ∧
        (retrieve_embeddings (some ⟨some u, some d⟩) st).status = 404) ∧
      (∀ c, st.blobs.lookup (chunksBlobName u d) = some c →
        (pyIterable c = true →
          retrieve_embeddings (some ⟨some u, some d⟩) st =
            RetrieveResult.ok (pyElems c)
              (optList (st.blobs.lookup (metadataBlobName u d)))
              (optList (st.blobs.lookup (metadataBlobName u d))).length
              (retrievedMsg (pyElems c).length
                (optList (st.blobs.lookup (metadataBlobName u d))).length) ∧
          (retrieve_embeddings (some ⟨some u, some d⟩) st).status = 200) ∧
        (pyIterable c = false →
          retrieve_embeddings (some ⟨some u, some d⟩) st =
            RetrieveResult.serverError "TypeError: object is not iterable" ∧
          (retrieve_embeddings (some ⟨some u, some d⟩) st).status = 500))) := by
  refine ⟨?_, ?_⟩
  · intro hb
    simp [retrieve_embeddings, hb]
  · intro hb
    refine ⟨?_, ?_⟩
    · intro habs
      have h1 : retrieve_embeddings (some ⟨some u, some d⟩) st =
          RetrieveResult.notFound ("Document " ++ d ++ " not found") := by
        simp [retrieve_embeddings, hb, hd, retrieveSingle, habs]
      exact ⟨h1, by rw [h1]; rfl⟩
    · intro c hc
      refine ⟨?_, ?_⟩
      · intro hit
        have h1 : retrieve_embeddings (some ⟨some u, some d⟩) st =
            RetrieveResult.ok (pyElems c)
              (optList (st.blobs.lookup (metadataBlobName u d)))
              (optList (st.blobs.lookup (metadataBlobName u d))).length
              (retrievedMsg (pyElems c).length
                (optList (st.blobs.lookup (metadataBlobName u d))).length) := by
          simp [retrieve_embeddings, hb, hd, retrieveSingle, hc, pyExtend, hit]
        exact ⟨h1, by rw [h1]; rfl⟩
      · intro hit
        have h1 : retrieve_embeddings (some ⟨some u, some d⟩) st =
            RetrieveResult.serverError "TypeError: object is not iterable" := by
          simp [retrieve_embeddings, hb, hd, retrieveSingle, hc, pyExtend, hit]
        exact ⟨h1, by rw [h1]; rfl⟩

theorem claim_C4_witness :
    retrieve_embeddings (some ⟨some "u", some "d"⟩)
        { bucketExists := true,
          blobs := [("users/u/documents/d/chunks.json", Json.arr [Json.null])] } =
      RetrieveResult.ok [Json.null] [] 0 (retrievedMsg 1 0) ∧
    retrieve_embeddings (some ⟨some "u", some "e"⟩)
        { bucketExists := true,
          blobs := [("users/u/documents/e/chunks.json", Json.num 7)] } =
      RetrieveResult.serverError "TypeError: object is not iterable" := by
  constructor
  · have h := (((claim_C4_full "u" "d"
      { bucketExists := true,
        blobs := [("users/u/documents/d/chunks.json", Json.arr [Json.null])] }
      (by decide)).2 rfl).2 (Json.arr [Json.null]) rfl).1 rfl
    rw [h.1]
    rfl
  · exact ((((claim_C4_full "u" "e"
      { bucketExists := true,
        blobs := [("users/u/documents/e/chunks.json", Json.num 7)] }
      (by decide)).2 rfl).2 (Json.num 7) rfl).2 rfl).1

/-- Claim C5 counterexample: a listing whose single chunks.json content is
a JSON number makes all-documents Retrieve raise TypeError in the extend
call and answer HTTP 500, instead of performing the aggregation into a
successful result that the claim describes for every store listing. -/
theorem claim_C5_counterexample :
    retrieve_embeddings (some ⟨some "u", none⟩)
        { bucketExists := true,
          blobs := [("users/u/documents/d/chunks.json", Json.num 7)] } =
      RetrieveResult.serverError "TypeError: object is not iterable" ∧
    (retrieve_embeddings (some ⟨some "u", none⟩)
        { bucketExists := true,
          blobs := [("users/u/documents/d/chunks.json", Json.num 7)] }).status = 500 :=
  ⟨rfl, rfl⟩

/-- Claim C5 (amended): all-documents Retrieve, provided every listed
chunks.json content is iterable (always the case for the JSON arrays that
Save writes), groups the listed objects by the 4th path segment
(0-indexed segment 3) of their keys; per group the parsed chunks.json
contents (when present) are concatenated in group order into the
aggregate chunk sequence and the parsed metadata.json contents (when
present) are appended to the metadata list, so a document holding only one
of the two files contributes only in part; documentsCount equals the length
of the returned metadata list.  A non-iterable chunks.json content
instead aborts the loop with TypeError and the operation answers
HTTP 500.  Stated as equality with the specification-side description
specChunks/specMeta. -/
theorem claim_C5 (u : String) (st : Store) (hb : st.bucketExists = true)
    (hwf : ∀ b ∈ st.blobs.filter (fun b => strStarts (userDir u) b.1),
      fileSeg b.1 = some "chunks.json" → pyIterable b.2 = true) :
    retrieve_embeddings (some ⟨some u, none⟩) st =
      RetrieveResult.ok
        (specChunks (st.blobs.filter (fun b => strStarts (userDir u) b.1)))
        (specMeta (st.blobs.filter (fun b => strStarts (userDir u) b.1)))
        (specMeta (st.blobs.filter (fun b => strStarts (userDir u) b.1))).length
        (retrievedMsg
          (specChunks (st.blobs.filter (fun b => strStarts (userDir u) b.1))).length
          (specMeta (st.blobs.filter (fun b => strStarts (userDir u) b.1))).length) := by
  simp only [retrieve_embeddings, hb, if_true, retrieveAll]
  rw [collect_group_spec _ hwf]

theorem claim_C5_witness :
    retrieve_embeddings (some ⟨some "u", none⟩)
        { bucketExists := true,
          blobs := [("users/u/documents/a/chunks.json", Json.arr [Json.num 1, Json.num 2]),
                    ("users/u/documents/b/metadata.json", Json.obj []),
                    ("users/v/documents/c/chunks.json", Json.arr [Json.num 9])] } =
      RetrieveResult.ok [Json.num 1, Json.num 2] [Json.obj []] 1 (retrievedMsg 2 1) := by
  have h := claim_C5 "u"
    { bucketExists := true,
      blobs := [("users/u/documents/a/chunks.json", Json.arr [Json.num 1, Json.num 2]),
                ("users/u/documents/b/metadata.json", Json.obj []),
                ("users/v/documents/c/chunks.json", Json.arr [Json.num 9])] } rfl
    (by decide)
  rw [h]
  rfl

/-- Claim C6: all-documents Delete, when the bucket exists and (as the
key-space invariant guarantees) every listed key has at least 5 path
segments, removes every listed object under the key beginning of the user and
reports documentsDeleted equal to the number of distinct documentId
segments (4th path component) observed in the listing — a document count,
not the object count. -/
theorem claim_C6 (u : String) (st : Store) (hb : st.bucketExists = true)
    (h5 : ∀ b ∈ st.blobs.filter (fun b => strStarts (userDir u) b.1),
      (splitSlash b.1).length ≥ 5) :
    delete_embeddings (some ⟨some u, none⟩) st =
      (DeleteResult.ok
        (firstDedup ((st.blobs.filter (fun b => strStarts (userDir u) b.1)).map
          (fun b => seg3 b.1))).length
        ("Successfully deleted " ++
          toString (firstDedup ((st.blobs.filter
            (fun b => strStarts (userDir u) b.1)).map (fun b => seg3 b.1))).length ++
          " documents for user " ++ u),
       { st with blobs := st.blobs.filter (fun b => !(strStarts (userDir u) b.1)) }) := by
  have hfm : (st.blobs.filter (fun b => strStarts (userDir u) b.1)).filterMap
      (fun b => docSeg b.1) =
      (st.blobs.filter (fun b => strStarts (userDir u) b.1)).map (fun b => seg3 b.1) := by
    apply filterMap_eq_map_mem
    intro b hbmem
    rw [docSeg_eq, if_pos (h5 b hbmem)]
  simp only [delete_embeddings, hb, if_true, deleteAll]
  rw [hfm]

theorem claim_C6_witness :
    delete_embeddings (some ⟨some "u", none⟩)
        { bucketExists := true,
          blobs := [("users/u/documents/a/chunks.json", Json.arr []),
                    ("users/u/documents/a/metadata.json", Json.obj []),
                    ("users/u/documents/b/chunks.json", Json.arr []),
                    ("users/u/documents/b/metadata.json", Json.obj []),
                    ("users/w/documents/z/chunks.json", Json.arr [])] } =
      (DeleteResult.ok 2 ("Successfully deleted " ++ toString 2 ++
          " documents for user " ++ "u"),
       { bucketExists := true,
         blobs := [("users/w/documents/z/chunks.json", Json.arr [])] }) := by
  have h := claim_C6 "u"
    { bucketExists := true,
      blobs := [("users/u/documents/a/chunks.json", Json.arr []),
                ("users/u/documents/a/metadata.json", Json.obj []),
                ("users/u/documents/b/chunks.json", Json.arr []),
                ("users/u/documents/b/metadata.json", Json.obj []),
                ("users/w/documents/z/chunks.json", Json.arr [])] } rfl
    (by decide)
  rw [h]
  rfl

/-- Claim C7: specific-document Delete (which requires a documentId that
selects that mode, hence a non-empty string) answers NotFound (HTTP 404)
when the listing under users/<userId>/documents/<documentId>/ is empty,
otherwise deletes every listed object and reports documentsDeleted = 1;
and deleting when the bucket does not exist is not an error but success
with documentsDeleted = 0. -/
theorem claim_C7 (u d : String) (st : Store) (hd : d ≠ "") :
    (st.bucketExists = false →
      delete_embeddings (some ⟨some u, some d⟩) st =
        (DeleteResult.ok 0 "No documents to delete", st)) ∧
    (st.bucketExists = true →
      ((st.blobs.filter (fun b => strStarts (docDir u d) b.1)).isEmpty = true →
        delete_embeddings (some ⟨some u, some d⟩) st =
          (DeleteResult.notFound ("Document " ++ d ++ " not found"), st) ∧
        (delete_embeddings (some ⟨some u, some d⟩) st).1.status = 404) ∧
      ((st.blobs.filter (fun b => strStarts (docDir u d) b.1)).isEmpty = false →
        delete_embeddings (some ⟨some u, some d⟩) st =
          (DeleteResult.ok 1 ("Successfully deleted document " ++ d),
           { st with blobs := st.blobs.filter (fun b => !(strStarts (docDir u d) b.1)) }))) := by
  refine ⟨?_, ?_⟩
  · intro hb
    simp [delete_embeddings, hb]
  · intro hb
    refine ⟨?_, ?_⟩
    · intro hemp
      have h1 : delete_embeddings (some ⟨some u, some d⟩) st =
          (DeleteResult.notFound ("Document " ++ d ++ " not found"), st) := by
        simp [delete_embeddings, hb, hd, deleteSingle, hemp]
      exact ⟨h1, by rw [h1]; rfl⟩
    · intro hemp
      simp [delete_embeddings, hb, hd, deleteSingle, hemp]

theorem claim_C7_witness :
    delete_embeddings (some ⟨some "u", some "d"⟩)
        { bucketExists := true,
          blobs := [("users/u/documents/d/chunks.json", Json.arr [])] } =
      (DeleteResult.ok 1 ("Successfully deleted document " ++ "d"),
       { bucketExists := true, blobs := [] }) ∧
    delete_embeddings (some ⟨some "u", some "nope"⟩)
        { bucketExists := false, blobs := [] } =
      (DeleteResult.ok 0 "No documents to delete",
       { bucketExists := false, blobs := [] }) := by
  constructor
  · have h := ((claim_C7 "u" "d"
      { bucketExists := true,
        blobs := [("users/u/documents/d/chunks.json", Json.arr [])] }
      (by decide)).2 rfl).2 rfl
    rw [h]
    rfl
  · exact (claim_C7 "u" "nope" { bucketExists := false, blobs := [] }
      (by decide)).1 rfl

/-- Claim C8: a successful Save writes exactly two objects — the chunks as
a JSON array at users/<userId>/documents/<documentId>/chunks.json and the
metadata at users/<userId>/documents/<documentId>/metadata.json,
overwriting existing objects at those names while every other name is
untouched — and reports chunksSaved equal to the chunks length and
storageUrl the canonical locator of the chunks object. -/
theorem claim_C8 (u d f : String) (cs : List Json) (m : Json) (st : Store)
    (hcs : cs ≠ []) :
    (save_embeddings (some ⟨some u, some d, some f, some (Json.arr cs), some m⟩)
        false st).1 =
      SaveResult.ok d cs.length ("gs://" ++ BUCKET_NAME ++ "/" ++ chunksBlobName u d)
        ("Successfully saved " ++ toString cs.length ++ " chunks for " ++ f) ∧
    (save_embeddings (some ⟨some u, some d, some f, some (Json.arr cs), some m⟩)
        false st).2.bucketExists = true ∧
    (save_embeddings (some ⟨some u, some d, some f, some (Json.arr cs), some m⟩)
        false st).2.blobs.lookup (chunksBlobName u d) = some (Json.arr cs) ∧
    (save_embeddings (some ⟨some u, some d, some f, some (Json.arr cs), some m⟩)
        false st).2.blobs.lookup (metadataBlobName u d) = some m ∧
    ∀ k, k ≠ chunksBlobName u d → k ≠ metadataBlobName u d →
      (save_embeddings (some ⟨some u, some d, some f, some (Json.arr cs), some m⟩)
        false st).2.blobs.lookup k = st.blobs.lookup k := by
  cases cs with
  | nil => exact absurd rfl hcs
  | cons c0 ct =>
      have hne := chunksBlobName_ne_metadataBlobName u d
      have hsave : save_embeddings (some ⟨some u, some d, some f,
          some (Json.arr (c0 :: ct)), some m⟩) false st =
        (SaveResult.ok d (c0 :: ct).length
            ("gs://" ++ BUCKET_NAME ++ "/" ++ chunksBlobName u d)
            ("Successfully saved " ++ toString (c0 :: ct).length ++
              " chunks for " ++ f),
         { bucketExists := true,
           blobs := updateAssoc (updateAssoc st.blobs (chunksBlobName u d)
             (Json.arr (c0 :: ct))) (metadataBlobName u d) m }) := by
        cases hbe : st.bucketExists <;> simp [save_embeddings, hbe]
      rw [hsave]
      refine ⟨rfl, rfl, ?_, ?_, ?_⟩
      · rw [lookup_updateAssoc_ne _ _ _ _ hne, lookup_updateAssoc_self]
      · rw [lookup_updateAssoc_self]
      · intro k hk1 hk2
        rw [lookup_updateAssoc_ne _ _ _ _ hk2, lookup_updateAssoc_ne _ _ _ _ hk1]

theorem claim_C8_witness :
    (save_embeddings (some ⟨some "u", some "d", some "f", some (Json.arr [Json.null]),
        some (Json.obj [])⟩) false { bucketExists := true, blobs := [] }).1 =
      SaveResult.ok "d" 1 "gs://myformsnapper-embeddings/users/u/documents/d/chunks.json"
        ("Successfully saved " ++ toString 1 ++ " chunks for " ++ "f") := by
  have h := claim_C8 "u" "d" "f" [Json.null] (Json.obj [])
    { bucketExists := true, blobs := [] } (by simp)
  rw [h.1]
  rfl

/-- Claim C9: in all-documents Delete every object under the per-user key
beginning is deleted, including keys with fewer than 5 slash-separated
segments, yet documentsDeleted counts only the distinct 4th segments of
keys having at least 5 segments; a listing containing a short key shows
the reported count strictly below the number of distinct 4th segments of
all listed keys. -/
theorem claim_C9 (u : String) (st : Store) (hb : st.bucketExists = true) :
    (delete_embeddings (some ⟨some u, none⟩) st =
      (DeleteResult.ok
        (firstDedup (((st.blobs.filter (fun b => strStarts (userDir u) b.1)).filter
          (fun b => decide ((splitSlash b.1).length ≥ 5))).map
            (fun b => seg3 b.1))).length
        ("Successfully deleted " ++
          toString (firstDedup (((st.blobs.filter
            (fun b => strStarts (userDir u) b.1)).filter
              (fun b => decide ((splitSlash b.1).length ≥ 5))).map
                (fun b => seg3 b.1))).length ++
          " documents for user " ++ u),
       { st with blobs := st.blobs.filter (fun b => !(strStarts (userDir u) b.1)) })) ∧
    ((delete_embeddings (some ⟨some "x", none⟩)
        { bucketExists := true,
          blobs := [("users/x/documents/stray", Json.null),
                    ("users/x/documents/d/chunks.json", Json.arr [])] }).1.deletedCount =
      some 1 ∧
     (firstDedup ([("users/x/documents/stray", Json.null),
                   ("users/x/documents/d/chunks.json", Json.arr [])].map
        (fun b => seg3 b.1))).length = 2) := by
  constructor
  · have hfm : (st.blobs.filter (fun b => strStarts (userDir u) b.1)).filterMap
        (fun b => docSeg b.1) =
        ((st.blobs.filter (fun b => strStarts (userDir u) b.1)).filter
          (fun b => decide ((splitSlash b.1).length ≥ 5))).map (fun b => seg3 b.1) := by
      induction st.blobs.filter (fun b => strStarts (userDir u) b.1) with
      | nil => rfl
      | cons a t ih =>
          by_cases h5 : (splitSlash a.1).length ≥ 5
          · have ha : docSeg a.1 = some (seg3 a.1) := by rw [docSeg_eq, if_pos h5]
            simp [List.filterMap_cons, List.filter_cons, ha, h5, ih]
          · have ha : docSeg a.1 = none := by rw [docSeg_eq, if_neg h5]
            simp [List.filterMap_cons, List.filter_cons, ha, h5, ih]
    simp only [delete_embeddings, hb, if_true, deleteAll]
    rw [hfm]
  · exact ⟨rfl, rfl⟩

theorem claim_C9_witness :
    delete_embeddings (some ⟨some "x", none⟩)
        { bucketExists := true,
          blobs := [("users/x/documents/stray", Json.null),
                    ("users/x/documents/d/chunks.json", Json.arr [])] } =
      (DeleteResult.ok 1 ("Successfully deleted " ++ toString 1 ++
          " documents for user " ++ "x"),
       { bucketExists := true, blobs := [] }) := by
  have h := (claim_C9 "x"
    { bucketExists := true,
      blobs := [("users/x/documents/stray", Json.null),
                ("users/x/documents/d/chunks.json", Json.arr [])] } rfl).1
  rw [h]
  rfl

/-- Claim C10: any error raised while checking for or creating the bucket
is swallowed: the response and the blob writes of Save are identical
whether or not the bucket existence check or creation raised, so a Save
request never fails solely because of such an error. -/
theorem claim_C10 (req : Option SaveRequest) (st : Store) :
    (save_embeddings req true st).1 = (save_embeddings req false st).1 ∧
    (save_embeddings req true st).2.blobs = (save_embeddings req false st).2.blobs := by
  cases req with
  | none => exact ⟨rfl, rfl⟩
  | some r =>
      obtain ⟨uo, dd, fo, co, mo⟩ := r
      cases uo <;> cases dd <;> cases fo <;> cases mo <;> cases co <;>
        try exact ⟨rfl, rfl⟩
      all_goals rename_i c
      all_goals cases c <;> try exact ⟨rfl, rfl⟩
      all_goals rename_i xs
      all_goals cases xs <;> try exact ⟨rfl, rfl⟩
      all_goals cases hbe : st.bucketExists <;> simp [save_embeddings, hbe]

end MyFormSnapper
